import Mathlib

/-!
Verification development for the GPS Quest navigation system.

The embedding models, faithfully to the TypeScript source:
* `Nav` / `update` / `navigateToPlace` / `addPlace` / `removePlace` —
  `NavigationDataComponent` (quest progression controller);
* `placeCheckVisited` / `selfPhase` — the `Place` base-class per-frame
  self-check that marks a place visited (`Place` constructor binding and
  `GeoLocationPlace.checkVisited`);
* `calculateRelativePosition` — `GeoLocationPlace.calculateRelativePosition`,
  including the JavaScript `null` arithmetic coercions the source relies on;
* `convertToNumber` / `registerManualPlace` — `ManualPlaceList.start`
  registration (the parser itself is modelled from the spec, see its
  doc comment).

Places are identified by natural-number ids.  Distances delivered by the
(user-position) tracker are an environment `Nat → Option ℚ` (a `none`
models a missing GPS fix / `null` distance).  Numbers are modelled as
rationals.
-/

namespace Spectacles

/-- Status enum of `NavigationDataComponent` (source `NavigationStatus`). -/
inductive NavigationStatus where
  | locationNotSelected
  | initializing
  | inProgress
  | succeeded
deriving DecidableEq, Repr

/-- Events emitted by the controller (the four public `Event` members). -/
inductive NavEvent where
  | navigationStarted : Option Nat → NavEvent
  | arrivedAtPlace : Nat → NavEvent
  | placesUpdated : NavEvent
  | allPlacesVisited : NavEvent
deriving DecidableEq, Repr

/-- JavaScript `Map.get`: `none` models `undefined` for an absent key.
JS maps are modelled as insertion-ordered association lists with unique
keys. -/
def mapGet (m : List (Nat × Bool)) (k : Nat) : Option Bool :=
  match m with
  | [] => none
  | (a, b) :: t => if a = k then some b else mapGet t k

/-- JavaScript `Map.set`: overwrite in place if present, append if absent. -/
def mapSet (m : List (Nat × Bool)) (k : Nat) (v : Bool) : List (Nat × Bool) :=
  match m with
  | [] => [(k, v)]
  | (a, b) :: t => if a = k then (a, v) :: t else (a, b) :: mapSet t k v

/-- Static per-place data read by the controller.  `radius` is
`GeoLocationPlace.distanceToVisit` (the activation radius handed to the
constructor); `distanceToActivate` is the value of the untyped property
lookup `(place as any).distanceToActivate` in
`NavigationDataComponent.update` — `none` (JS `undefined`) for every
`GeoLocationPlace`, which stores its radius under the name
`distanceToVisit` instead, so the controller falls back to `?? 10`. -/
structure Cfg where
  radius : Nat → ℚ
  distanceToActivate : Nat → Option ℚ

/-- Mutable state of `NavigationDataComponent` together with the shared
per-place `Place._visited` flags. -/
structure Nav where
  places : List Nat
  status : NavigationStatus
  selected : Option Nat
  placesVisited : List (Nat × Bool)
  placesAt : List (Nat × Bool)
  emittedAllVisited : Bool
  hasArrivedAtSelectedPlace : Bool
  visited : Nat → Bool

/-- Pointwise update of the visited-flag assignment. -/
def setVisited (f : Nat → Bool) (k : Nat) (v : Bool) : Nat → Bool :=
  fun q => if q = k then v else f q

/-- JavaScript `Array.indexOf`: the index of the first occurrence, `-1`
when the element is absent. -/
def jsIndexOf (l : List Nat) (p : Nat) : Int :=
  match l with
  | [] => -1
  | a :: t =>
    if a = p then 0
    else if jsIndexOf t p = -1 then -1 else jsIndexOf t p + 1

/-- JavaScript array indexing: `undefined` (here `none`) for a negative or
out-of-range index. -/
def jsGetIdx (l : List Nat) (i : Int) : Option Nat :=
  if i < 0 then none else l.get? i.toNat

/-- `GeoLocationPlace.checkVisited`: true iff the physical distance to the
user is non-null and strictly below the activation radius
(`distanceToVisit`). -/
def placeCheckVisited (dist : Option ℚ) (r : ℚ) : Bool :=
  match dist with
  | none => false
  | some d => decide (d < r)

/-- The per-frame handler bound in the `Place` constructor: every
constructed place marks itself visited when its own `checkVisited` fires.
It consults only the place's own distance and radius — never the
controller, the ordered list, or a predecessor — and never clears the
flag. -/
def selfPhase (cfg : Cfg) (env : Nat → Option ℚ) (s : Nav) : Nav :=
  { s with visited := fun q =>
      if placeCheckVisited (env q) (cfg.radius q) then true else s.visited q }

/-- One iteration of the guided-experience consistency sweep in
`NavigationDataComponent.update` for place `p`, where `pred` is the place
at the previous index (`none` at index 0). -/
def sweepStep (pred : Option Nat) (p : Nat) (s : Nav) : Nav × List NavEvent :=
  let atPlace := s.visited p
  let changed : Bool :=
    match mapGet s.placesAt p with
    | some b => atPlace != b
    | none => true
  if changed then
    if atPlace then
      let prevVisited : Bool :=
        match pred with
        | none => true
        | some q => s.visited q
      if prevVisited then
        ({ s with placesVisited := mapSet s.placesVisited p true,
                  placesAt := mapSet s.placesAt p true },
         [NavEvent.arrivedAtPlace p])
      else
        ({ s with visited := setVisited s.visited p false }, [])
    else
      ({ s with placesAt := mapSet s.placesAt p false }, [])
  else (s, [])

/-- The consistency sweep over a list of places, carrying the previous
element (the source reads `this._places[i - 1]`, which is exactly the
previously iterated element since the list is not mutated during the
loop). -/
def sweepGo (pred : Option Nat) (l : List Nat) (s : Nav) : Nav × List NavEvent :=
  match l with
  | [] => (s, [])
  | p :: rest =>
    let r1 := sweepStep pred p s
    let r2 := sweepGo (some p) rest r1.1
    (r2.1, r1.2 ++ r2.2)

/-- The completion check's accumulator:
`let allVisited = size > 0; forEach: allVisited = allVisited && visited`. -/
def allVisitedCheck (m : List (Nat × Bool)) : Bool :=
  m.foldl (fun acc e => acc && e.2) (decide (0 < m.length))

/-- Completion check at the end of `update`: latched by
`emittedAllVisited`. -/
def completionStep (s : Nav) : Nav × List NavEvent :=
  if s.emittedAllVisited then (s, [])
  else if allVisitedCheck s.placesVisited then
    ({ s with emittedAllVisited := true }, [NavEvent.allPlacesVisited])
  else (s, [])

/-- `update` as executed when `selectedPlace` is null: only the sweep and
the completion check run. -/
def updateNoSel (s : Nav) : Nav × List NavEvent :=
  let r1 := sweepGo none s.places s
  let r2 := completionStep r1.1
  (r2.1, r1.2 ++ r2.2)

/-- `NavigationDataComponent.addPlace` (non-null argument): duplicate adds
are ignored, otherwise the place is appended, its bookkeeping entries are
created, `placesUpdated` fires and the all-visited latch is reset. -/
def addPlace (p : Nat) (s : Nav) : Nav × List NavEvent :=
  if p ∈ s.places then (s, [])
  else
    ({ s with places := s.places ++ [p],
              placesVisited := mapSet s.placesVisited p false,
              placesAt := mapSet s.placesAt p false,
              emittedAllVisited := false },
     [NavEvent.placesUpdated])

/-- `navigateToPlace(nextPlace)` as invoked from inside `update` during
auto-advance: at that point `selectedPlace` has just been set to null, so
the early-return comparison fails and the nested `this.update()` runs with
no selected place (`updateNoSel`). -/
def navigateToPlaceInner (np : Nat) (s : Nav) : Nav × List NavEvent :=
  let r1 := if np ∈ s.places then (s, ([] : List NavEvent)) else addPlace np s
  let s2 := { r1.1 with status := NavigationStatus.inProgress }
  let r3 := updateNoSel s2
  let s4 := { r3.1 with selected := some np, hasArrivedAtSelectedPlace := false }
  (s4, r1.2 ++ r3.2 ++ [NavEvent.navigationStarted (some np)])

/-- The forward scan for the first unvisited place
(`for i = currentIdx + 1; ...` in `update`), applied to the dropped
prefix. -/
def firstUnvisited (l : List Nat) (v : Nat → Bool) : Option Nat :=
  match l with
  | [] => none
  | a :: t => if v a then firstUnvisited t v else some a

/-- The arrival condition of the selected-place block:
`distance !== null && distance <= distanceToActivate && prevVisited &&
!this.selectedPlace.visited`, where `prevVisited` is
`!prev || prev.visited` for `prev = this._places[currentIdx - 1]` (an
out-of-range index yields `undefined`, hence `true`). -/
def arrivalCheck (cfg : Cfg) (env : Nat → Option ℚ) (s : Nav) (sp : Nat) : Bool :=
  match env sp with
  | none => false
  | some d =>
    decide (d ≤ (cfg.distanceToActivate sp).getD 10) &&
      (match jsGetIdx s.places (jsIndexOf s.places sp - 1) with
        | none => true
        | some q => s.visited q) &&
      ! s.visited sp

/-- The "user placed pin navigation" block of `update` (runs only when a
place is selected).  The source's inner `if (this.hasArrivedAtSelectedPlace)`
guard is evaluated immediately after the flag is assigned `true`, so it is
always taken and is inlined here. -/
def selectedPhase (cfg : Cfg) (env : Nat → Option ℚ) (s : Nav) : Nav × List NavEvent :=
  match s.selected with
  | none => (s, [])
  | some sp =>
    let r1 : Nav × List NavEvent :=
      if arrivalCheck cfg env s sp then
        ({ s with visited := setVisited s.visited sp true,
                  hasArrivedAtSelectedPlace := true },
         [NavEvent.arrivedAtPlace sp])
      else (s, [])
    let s1 := r1.1
    if s1.visited sp then
      let s2 := { s1 with hasArrivedAtSelectedPlace := true }
      let nextPlace :=
        firstUnvisited (s2.places.drop ((jsIndexOf s2.places sp + 1).toNat)) s2.visited
      match nextPlace with
      | some np =>
        let s3 := { s2 with selected := none }
        let r4 := navigateToPlaceInner np s3
        (r4.1, r1.2 ++ [NavEvent.arrivedAtPlace sp] ++ r4.2)
      | none =>
        ({ s2 with selected := none, status := NavigationStatus.succeeded },
         r1.2 ++ [NavEvent.arrivedAtPlace sp])
    else (s1, r1.2)

/-- `NavigationDataComponent.update`: selected-place block, then the
consistency sweep over the (current) place list, then the completion
check. -/
def update (cfg : Cfg) (env : Nat → Option ℚ) (s : Nav) : Nav × List NavEvent :=
  let r1 := selectedPhase cfg env s
  let r2 := sweepGo none r1.1.places r1.1
  let r3 := completionStep r2.1
  (r3.1, r1.2 ++ r2.2 ++ r3.2)

/-- `NavigationDataComponent.navigateToPlace` called externally: early
return when the argument is already selected; otherwise register if
missing, set the status, run a full `update` (still with the old selected
place), then install the new selection, reset the arrival latch and emit
`navigationStarted`. -/
def navigateToPlace (cfg : Cfg) (env : Nat → Option ℚ) (p : Option Nat) (s : Nav) :
    Nav × List NavEvent :=
  if s.selected = p then (s, [])
  else
    let r1 : Nav × List NavEvent :=
      match p with
      | some q => if q ∈ s.places then (s, []) else addPlace q s
      | none => (s, [])
    let s2 := { r1.1 with status :=
      match p with
      | none => NavigationStatus.locationNotSelected
      | some _ => NavigationStatus.inProgress }
    let r3 := update cfg env s2
    let s4 := { r3.1 with selected := p, hasArrivedAtSelectedPlace := false }
    (s4, r1.2 ++ r3.2 ++ [NavEvent.navigationStarted p])

/-- `NavigationDataComponent.removePlace`: filter the list, delete the two
bookkeeping entries, emit `placesUpdated` only when something was removed.
No other field is touched. -/
def removePlace (p : Nat) (s : Nav) : Nav × List NavEvent :=
  let newPlaces := s.places.filter (fun a => decide (a ≠ p))
  let s1 := { s with places := newPlaces,
                     placesVisited := s.placesVisited.filter (fun e => decide (e.1 ≠ p)),
                     placesAt := s.placesAt.filter (fun e => decide (e.1 ≠ p)) }
  if newPlaces.length ≠ s.places.length then (s1, [NavEvent.placesUpdated]) else (s1, [])

/-- A sequence of controller ticks (per-frame `update` calls) with the
events they emit, concatenated in order. -/
def runTicks (cfg : Cfg) (env : Nat → Option ℚ) : Nat → Nav → Nav × List NavEvent
  | 0, s => (s, [])
  | n + 1, s =>
    let r1 := update cfg env s
    let r2 := runTicks cfg env n r1.1
    (r2.1, r1.2 ++ r2.2)

/-! ## GeoLocationPlace 3D projection (`calculateRelativePosition`) -/

/-- GPS coordinates (`GeoPosition`). -/
structure GeoPos where
  latitude : ℚ
  longitude : ℚ
  altitude : ℚ
deriving DecidableEq, Repr

/-- A 3D vector (`vec3`). -/
structure Vec3 where
  x : ℚ
  y : ℚ
  z : ℚ
deriving DecidableEq, Repr

/-- Componentwise vector addition (`vec3.add`). -/
def vadd (a b : Vec3) : Vec3 := ⟨a.x + b.x, a.y + b.y, a.z + b.z⟩

/-- Uniform scaling (`vec3.uniformScale`). -/
def vscale (a : Vec3) (k : ℚ) : Vec3 := ⟨a.x * k, a.y * k, a.z * k⟩

/-- The observables `GeoLocationPlace` reads from its `UserPosition`
tracker (the tracker class itself is an external collaborator):
`getGeoPosition()` (null until first fix), `getBearing()`, the anchored
transform's world position and the camera-derived forward vector already
projected on the ground plane and normalized, and whether the tracker's
status is `GeoLocalizationAvailable`. -/
structure UserObs where
  geo : Option GeoPos
  deviceBearing : ℚ
  worldPos : Vec3
  forward : Vec3
  geoAvailable : Bool

/-- The per-instance data of a `GeoLocationPlace`. -/
structure GeoPlace where
  geoPosition : GeoPos
  distanceToVisit : ℚ

/-- `GeoLocationPlace.getPhysicalDistance`: null when the user has no GPS
fix, otherwise the great-circle distance.  The distance formula
(`getPhysicalDistanceBetweenLocations` in `NavigationUtils`) is an
external pure function and is abstracted as the parameter `distFn`. -/
def getPhysicalDistance (distFn : GeoPos → GeoPos → ℚ) (u : UserObs) (pl : GeoPlace) :
    Option ℚ :=
  match u.geo with
  | none => none
  | some ug => some (distFn ug pl.geoPosition)

/-- `GeoLocationPlace.getBearing`: null unless the tracker reports
`GeoLocalizationAvailable`; otherwise the (normalized) bearing, abstracted
as `bearFn` (`calculateBearing`/`normalizeAngle` live in the external
`NavigationUtils`). -/
def getBearingTo (bearFn : Option GeoPos → GeoPos → ℚ) (u : UserObs) (pl : GeoPlace) :
    Option ℚ :=
  if u.geoAvailable then some (bearFn u.geo pl.geoPosition) else none

/-- Rotation of a vector about the world up axis by an Euler angle, as in
`quat.fromEulerAngles(0, angle, 0).multiplyVec3 v`.  The trigonometric
functions are abstract parameters (they do not exist on ℚ); every theorem
below holds for all choices, and only the fact that the rotation leaves
the Y component alone matters to the claims. -/
def rotYDeg (sinFn cosFn : ℚ → ℚ) (angle : ℚ) (v : Vec3) : Vec3 :=
  ⟨v.x * cosFn angle + v.z * sinFn angle, v.y, v.z * cosFn angle - v.x * sinFn angle⟩

/-- `GeoLocationPlace.calculateRelativePosition(yOffset)` translated
statement by statement, including the JavaScript numeric coercions the
source (an untyped `number | null` flowing into arithmetic) actually
performs: `null - b` evaluates to `-b` and `null * 100` evaluates to `0`,
modelled by `Option.getD 0`.  Note the body contains no `return null`
statement even though the declared return type admits one. -/
def calculateRelativePosition (sinFn cosFn : ℚ → ℚ) (distFn : GeoPos → GeoPos → ℚ)
    (bearFn : Option GeoPos → GeoPos → ℚ) (u : UserObs) (pl : GeoPlace) (yOffset : ℚ) :
    Option Vec3 :=
  let userForward := u.forward
  let distance := getPhysicalDistance distFn u pl
  let bearing := ((getBearingTo bearFn u pl).getD 0) - u.deviceBearing
  let pinAltitude := pl.geoPosition.altitude
  let userAltitude := (u.geo.map GeoPos.altitude).getD 0
  let projectedPosition :=
    vadd (vadd u.worldPos
      (vscale (rotYDeg sinFn cosFn (-bearing) userForward) ((distance.getD 0) * 100)))
      ⟨0, yOffset + (pinAltitude - userAltitude) * 100, 0⟩
  some { projectedPosition with y := u.worldPos.y }

/-- `GeoLocationPlace.getRelativePosition()` = `calculateRelativePosition(0)`. -/
def getRelativePosition (sinFn cosFn : ℚ → ℚ) (distFn : GeoPos → GeoPos → ℚ)
    (bearFn : Option GeoPos → GeoPos → ℚ) (u : UserObs) (pl : GeoPlace) : Option Vec3 :=
  calculateRelativePosition sinFn cosFn distFn bearFn u pl 0

/-! ## ManualPlaceList registration -/

/-- Digit accumulation for the decimal parser. -/
def digitsToNatAux (acc : ℕ) : List Char → Option ℕ
  | [] => some acc
  | c :: t => if c.isDigit then digitsToNatAux (acc * 10 + (c.toNat - 48)) t else none

/-- A non-empty all-digit character list parsed as a natural number. -/
def digitsToNat (l : List Char) : Option ℕ :=
  match l with
  | [] => none
  | _ => digitsToNatAux 0 l

/-- An unsigned decimal numeral, optionally with a fractional part. -/
def parsePositive (l : List Char) : Option ℚ :=
  let intPart := l.takeWhile (fun c => c ≠ '.')
  let rest := l.dropWhile (fun c => c ≠ '.')
  match digitsToNat intPart with
  | none => none
  | some n =>
    match rest with
    | [] => some (n : ℚ)
    | _ :: frac =>
      match digitsToNat frac with
      | none => none
      | some f => some ((n : ℚ) + (f : ℚ) / ((10 : ℚ) ^ frac.length))

/-- A signed decimal numeral. -/
def parseNumber (s : String) : Option ℚ :=
  match s.data with
  | '-' :: rest => (parsePositive rest).map (fun q => -q)
  | l => parsePositive l

/-- Modelled from the spec: `convertToNumber` lives in `NavigationUtils`,
which is not among the repository sources; the spec requires that "string
lat/lon are parsed into floats at registration time; malformed strings
must fail registration with a clear error rather than silently defaulting
to 0", so the model parses decimal numerals and reports a descriptive
error for anything else. -/
def convertToNumber (s : String) : Except String ℚ :=
  match parseNumber s with
  | some q => Except.ok q
  | none => Except.error ("Could not convert " ++ s ++ " to a number.")

/-- One entry of the `Manual Geo Places` input array (`GeoPlaceInput`). -/
structure GeoPlaceInput where
  active : Bool
  latitude : String
  longitude : String
  label : String
  distanceToActivate : ℚ

/-- Registration of one input by `ManualPlaceList.start`: inactive inputs
are skipped; otherwise the longitude and then the latitude strings are
converted (a conversion failure aborts before `addPlace` runs, so the
waypoint is not registered), and the freshly constructed place is handed
to `NavigationDataComponent.addPlace`. -/
def registerManualPlace (inp : GeoPlaceInput) (freshId : Nat) (s : Nav) :
    Except String (Nav × List NavEvent) :=
  if inp.active then
    match convertToNumber inp.longitude with
    | Except.error e => Except.error e
    | Except.ok _ =>
      match convertToNumber inp.latitude with
      | Except.error e => Except.error e
      | Except.ok _ => Except.ok (addPlace freshId s)
  else Except.ok (s, [])

/-- The carried predecessor after processing a prefix of the sweep list. -/
def predAfter (pred : Option Nat) (l : List Nat) : Option Nat :=
  match l.getLast? with
  | some a => some a
  | none => pred

/-- Every bookkeeping entry records a confirmed visit, and there is at
least one: exactly the condition computed by the completion check. -/
def allConfirmed (m : List (Nat × Bool)) : Prop :=
  m ≠ [] ∧ ∀ e ∈ m, e.2 = true

/-! ## Concrete scenario data used by the claims -/

/-- Every place has a 10 m activation radius, and — like every
`GeoLocationPlace` — exposes no `distanceToActivate` property to the
controller's untyped lookup. -/
def demoCfg : Cfg := ⟨fun _ => 10, fun _ => none⟩

/-- The controller state right after `onAwake`: no places registered,
status `Initializing`, nothing selected. -/
def emptyNav : Nav :=
  { places := [], status := NavigationStatus.initializing, selected := none,
    placesVisited := [], placesAt := [], emittedAllVisited := false,
    hasArrivedAtSelectedPlace := false, visited := fun _ => false }

/-- Two registered places `0` (= A) and `1` (= B), place `0` selected,
nothing visited yet. -/
def twoNav : Nav :=
  { places := [0, 1], status := NavigationStatus.inProgress, selected := some 0,
    placesVisited := [(0, false), (1, false)], placesAt := [(0, false), (1, false)],
    emittedAllVisited := false, hasArrivedAtSelectedPlace := false,
    visited := fun _ => false }

/-- The user is 5 m from place 0 and 1000 m from everything else. -/
def nearFirstEnv : Nat → Option ℚ := fun q => if q = 0 then some 5 else some 1000

/-- The user is 5 m from place 1 and 20 m from everything else. -/
def nearSecondEnv : Nat → Option ℚ := fun q => if q = 1 then some 5 else some 20

/-- No GPS fix: every distance is null. -/
def noFixEnv : Nat → Option ℚ := fun _ => none

/-- Like `twoNav` but with nothing selected. -/
def idleNav : Nav := { twoNav with selected := none }

/-- One registered place that marked itself visited through its own
per-frame proximity check (5 m < 10 m), never selected: reached from the
initial state by `addPlace` and one self-check round. -/
def soloVisitedNav : Nav :=
  selfPhase demoCfg (fun q => if q = 0 then some 5 else none) (addPlace 0 emptyNav).1

/-- Like `twoNav` but place 1 was externally flagged visited while its
predecessor 0 is unvisited. -/
def stubbedNav : Nav := { twoNav with visited := fun q => q == 1 }

/-- Like `stubbedNav` with nothing selected. -/
def stubbedIdleNav : Nav := { stubbedNav with selected := none }

/-- Both bookkeeping entries confirmed, latch not yet fired, nothing
selected. -/
def doneNav : Nav :=
  { twoNav with selected := none, placesVisited := [(0, true), (1, true)] }

/-- Place 0 arrived and confirmed, still selected; place 1 outstanding. -/
def arrivedNav : Nav :=
  { twoNav with placesVisited := [(0, true), (1, false)],
                placesAt := [(0, true), (1, false)],
                hasArrivedAtSelectedPlace := true, visited := fun q => q == 0 }

/-- Like `twoNav` but place 1 is selected. -/
def secondSelNav : Nav := { twoNav with selected := some 1 }

/-- Like `secondSelNav` but place 1 is already visited. -/
def secondSelVisitedNav : Nav := { secondSelNav with visited := fun q => q == 1 }

/-- A user-position observation with no GPS fix yet. -/
def noFixUser : UserObs := ⟨none, 7, ⟨1, 2, 3⟩, ⟨0, 0, 1⟩, false⟩

/-- A waypoint at some GPS coordinate, 10 m radius. -/
def demoPlace : GeoPlace := ⟨⟨50, 30, 200⟩, 10⟩

/-! ## Basic lemmas about the JS map model -/

lemma mapGet_mapSet_ne {m : List (Nat × Bool)} {a k : Nat} {v : Bool} (h : k ≠ a) :
    mapGet (mapSet m a v) k = mapGet m k := by
  induction m with
  | nil => simp [mapGet, mapSet, Ne.symm h]
  | cons e t ih =>
    obtain ⟨b, w⟩ := e
    by_cases hb : b = a
    · subst hb
      simp [mapSet, mapGet, Ne.symm h]
    · simp [mapSet, mapGet, hb, ih]

lemma mem_mapSet {m : List (Nat × Bool)} {a : Nat} {v : Bool} {e : Nat × Bool}
    (h : e ∈ mapSet m a v) : e ∈ m ∨ e = (a, v) := by
  induction m with
  | nil => simp [mapSet] at h; exact Or.inr h
  | cons f t ih =>
    obtain ⟨b, w⟩ := f
    by_cases hb : b = a
    · subst hb
      simp only [mapSet, if_pos rfl] at h
      rcases List.mem_cons.mp h with h | h
      · exact Or.inr h
      · exact Or.inl (List.mem_cons_of_mem _ h)
    · simp only [mapSet, if_neg hb] at h
      rcases List.mem_cons.mp h with h | h
      · exact Or.inl (h ▸ List.mem_cons_self _ _)
      · rcases ih h with h | h
        · exact Or.inl (List.mem_cons_of_mem _ h)
        · exact Or.inr h

lemma mapSet_ne_nil (m : List (Nat × Bool)) (a : Nat) (v : Bool) : mapSet m a v ≠ [] := by
  cases m with
  | nil => simp [mapSet]
  | cons e t =>
    obtain ⟨b, w⟩ := e
    by_cases hb : b = a <;> simp [mapSet, hb]

/-! ## Lemmas about one sweep iteration -/

/-- The four possible outcomes of one sweep iteration. -/
lemma sweepStep_cases (pred : Option Nat) (p : Nat) (s : Nav) :
    sweepStep pred p s = (s, []) ∨
    (sweepStep pred p s =
      ({ s with placesVisited := mapSet s.placesVisited p true,
                placesAt := mapSet s.placesAt p true }, [NavEvent.arrivedAtPlace p])
      ∧ s.visited p = true) ∨
    (sweepStep pred p s = ({ s with visited := setVisited s.visited p false }, [])
      ∧ s.visited p = true) ∨
    (sweepStep pred p s = ({ s with placesAt := mapSet s.placesAt p false }, [])
      ∧ s.visited p = false) := by
  cases hat : s.visited p with
  | false =>
    cases hm : mapGet s.placesAt p with
    | none =>
      refine Or.inr (Or.inr (Or.inr ⟨?_, rfl⟩))
      simp [sweepStep, hat, hm]
    | some b =>
      cases b with
      | false =>
        refine Or.inl ?_
        simp [sweepStep, hat, hm]
      | true =>
        refine Or.inr (Or.inr (Or.inr ⟨?_, rfl⟩))
        simp [sweepStep, hat, hm]
  | true =>
    by_cases hne : mapGet s.placesAt p = some true
    · refine Or.inl ?_
      simp [sweepStep, hat, hne]
    · cases hm : mapGet s.placesAt p with
      | some b =>
        cases b with
        | true => exact absurd hm hne
        | false =>
          cases pred with
          | none =>
            refine Or.inr (Or.inl ⟨?_, rfl⟩)
            simp [sweepStep, hat, hm]
          | some q =>
            cases hq : s.visited q with
            | true =>
              refine Or.inr (Or.inl ⟨?_, rfl⟩)
              simp [sweepStep, hat, hm, hq]
            | false =>
              refine Or.inr (Or.inr (Or.inl ⟨?_, rfl⟩))
              simp [sweepStep, hat, hm, hq]
      | none =>
        cases pred with
        | none =>
          refine Or.inr (Or.inl ⟨?_, rfl⟩)
          simp [sweepStep, hat, hm]
        | some q =>
          cases hq : s.visited q with
          | true =>
            refine Or.inr (Or.inl ⟨?_, rfl⟩)
            simp [sweepStep, hat, hm, hq]
          | false =>
            refine Or.inr (Or.inr (Or.inl ⟨?_, rfl⟩))
            simp [sweepStep, hat, hm, hq]

lemma sweepStep_frame (pred : Option Nat) (p : Nat) (s : Nav) :
    (sweepStep pred p s).1.places = s.places ∧
    (sweepStep pred p s).1.status = s.status ∧
    (sweepStep pred p s).1.selected = s.selected ∧
    (sweepStep pred p s).1.emittedAllVisited = s.emittedAllVisited := by
  rcases sweepStep_cases pred p s with h | ⟨h, _⟩ | ⟨h, _⟩ | ⟨h, _⟩ <;> rw [h] <;>
    exact ⟨rfl, rfl, rfl, rfl⟩

lemma sweepStep_visited_mono {pred : Option Nat} {p : Nat} {s : Nav} {x : Nat}
    (h : (sweepStep pred p s).1.visited x = true) : s.visited x = true := by
  rcases sweepStep_cases pred p s with hc | ⟨hc, _⟩ | ⟨hc, _⟩ | ⟨hc, _⟩ <;> rw [hc] at h
  · exact h
  · exact h
  · simp only [setVisited] at h
    split at h
    · exact absurd h (by simp)
    · exact h
  · exact h

lemma sweepStep_visited_ne {pred : Option Nat} {p : Nat} {s : Nav} {x : Nat} (hx : x ≠ p) :
    (sweepStep pred p s).1.visited x = s.visited x := by
  rcases sweepStep_cases pred p s with hc | ⟨hc, _⟩ | ⟨hc, _⟩ | ⟨hc, _⟩ <;> rw [hc] <;>
    simp [setVisited, hx]

lemma sweepStep_placesAt_ne {pred : Option Nat} {p : Nat} {s : Nav} {x : Nat} (hx : x ≠ p) :
    mapGet (sweepStep pred p s).1.placesAt x = mapGet s.placesAt x := by
  rcases sweepStep_cases pred p s with hc | ⟨hc, _⟩ | ⟨hc, _⟩ | ⟨hc, _⟩ <;> rw [hc] <;>
    simp [mapGet_mapSet_ne hx]

lemma sweepStep_events {pred : Option Nat} {p : Nat} {s : Nav} :
    (sweepStep pred p s).2 = [] ∨
    ((sweepStep pred p s).2 = [NavEvent.arrivedAtPlace p] ∧ s.visited p = true) := by
  rcases sweepStep_cases pred p s with hc | ⟨hc, hv⟩ | ⟨hc, _⟩ | ⟨hc, _⟩ <;> rw [hc]
  · exact Or.inl rfl
  · exact Or.inr ⟨rfl, hv⟩
  · exact Or.inl rfl
  · exact Or.inl rfl

/-- The revert branch: a place whose flag turned on while unconfirmed and
whose predecessor is unvisited is forced back to unvisited, silently. -/
lemma sweepStep_revert {q p : Nat} {s : Nav} (hv : s.visited p = true)
    (hat : mapGet s.placesAt p ≠ some true) (hq : s.visited q = false) :
    sweepStep (some q) p s = ({ s with visited := setVisited s.visited p false }, []) := by
  cases hm : mapGet s.placesAt p with
  | none => simp [sweepStep, hv, hq, hm]
  | some b =>
    cases b with
    | true => exact absurd hm hat
    | false => simp [sweepStep, hv, hq, hm]

/-- The no-op/else branch when the flag is off: visited assignment and
events are untouched, other keys of `placesAt` are untouched. -/
lemma sweepStep_not_at {pred : Option Nat} {p : Nat} {s : Nav} (hv : s.visited p = false) :
    (sweepStep pred p s).1.visited = s.visited ∧ (sweepStep pred p s).2 = [] := by
  rcases sweepStep_cases pred p s with hc | ⟨hc, hv2⟩ | ⟨hc, hv2⟩ | ⟨hc, _⟩ <;> rw [hc]
  · exact ⟨rfl, rfl⟩
  · rw [hv] at hv2; exact absurd hv2 (by simp)
  · rw [hv] at hv2; exact absurd hv2 (by simp)
  · exact ⟨rfl, rfl⟩

/-! ## Lemmas about the whole consistency sweep -/

lemma sweepGo_cons (pred : Option Nat) (p : Nat) (rest : List Nat) (s : Nav) :
    sweepGo pred (p :: rest) s =
      ((sweepGo (some p) rest (sweepStep pred p s).1).1,
       (sweepStep pred p s).2 ++ (sweepGo (some p) rest (sweepStep pred p s).1).2) := by
  simp [sweepGo]

lemma sweepGo_frame (pred : Option Nat) (l : List Nat) (s : Nav) :
    (sweepGo pred l s).1.places = s.places ∧
    (sweepGo pred l s).1.status = s.status ∧
    (sweepGo pred l s).1.selected = s.selected ∧
    (sweepGo pred l s).1.emittedAllVisited = s.emittedAllVisited := by
  induction l generalizing pred s with
  | nil => exact ⟨rfl, rfl, rfl, rfl⟩
  | cons p rest ih =>
    rw [sweepGo_cons]
    obtain ⟨h1, h2, h3, h4⟩ := ih (some p) (sweepStep pred p s).1
    obtain ⟨g1, g2, g3, g4⟩ := sweepStep_frame pred p s
    exact ⟨h1.trans g1, h2.trans g2, h3.trans g3, h4.trans g4⟩

lemma sweepGo_visited_mono {pred : Option Nat} {l : List Nat} {s : Nav} {x : Nat}
    (h : (sweepGo pred l s).1.visited x = true) : s.visited x = true := by
  induction l generalizing pred s with
  | nil => exact h
  | cons p rest ih =>
    rw [sweepGo_cons] at h
    exact sweepStep_visited_mono (ih h)

lemma sweepGo_visited_of_not_mem {pred : Option Nat} {l : List Nat} {s : Nav} {x : Nat}
    (hx : x ∉ l) : (sweepGo pred l s).1.visited x = s.visited x := by
  induction l generalizing pred s with
  | nil => rfl
  | cons p rest ih =>
    rw [sweepGo_cons]
    have hxp : x ≠ p := fun h => hx (h ▸ List.mem_cons_self _ _)
    have hxr : x ∉ rest := fun h => hx (List.mem_cons_of_mem _ h)
    exact (ih hxr).trans (sweepStep_visited_ne hxp)

lemma sweepGo_placesAt_of_not_mem {pred : Option Nat} {l : List Nat} {s : Nav} {x : Nat}
    (hx : x ∉ l) : mapGet (sweepGo pred l s).1.placesAt x = mapGet s.placesAt x := by
  induction l generalizing pred s with
  | nil => rfl
  | cons p rest ih =>
    rw [sweepGo_cons]
    have hxp : x ≠ p := fun h => hx (h ▸ List.mem_cons_self _ _)
    have hxr : x ∉ rest := fun h => hx (List.mem_cons_of_mem _ h)
    exact (ih hxr).trans (sweepStep_placesAt_ne hxp)

lemma sweepGo_arrived_mem {pred : Option Nat} {l : List Nat} {s : Nav} {x : Nat}
    (h : NavEvent.arrivedAtPlace x ∈ (sweepGo pred l s).2) : x ∈ l := by
  induction l generalizing pred s with
  | nil => simp [sweepGo] at h
  | cons p rest ih =>
    rw [sweepGo_cons] at h
    rcases List.mem_append.mp h with h | h
    · rcases @sweepStep_events pred p s with he | ⟨he, _⟩ <;>
        rw [he] at h
      · simp at h
      · simp at h
        exact h ▸ List.mem_cons_self _ _
    · exact List.mem_cons_of_mem _ (ih h)

/-- A place whose flag is off before the sweep stays off and produces no
arrival event during the sweep. -/
lemma sweepGo_unvisited {pred : Option Nat} {l : List Nat} {s : Nav} {x : Nat}
    (hx : s.visited x = false) :
    (sweepGo pred l s).1.visited x = false ∧
    NavEvent.arrivedAtPlace x ∉ (sweepGo pred l s).2 := by
  induction l generalizing pred s with
  | nil => exact ⟨hx, by simp [sweepGo]⟩
  | cons p rest ih =>
    rw [sweepGo_cons]
    by_cases hxp : x = p
    · subst hxp
      obtain ⟨hv, he⟩ := @sweepStep_not_at pred x s hx
      have hx2 : (sweepStep pred x s).1.visited x = false := by rw [hv]; exact hx
      obtain ⟨ih1, ih2⟩ := ih hx2
      refine ⟨ih1, ?_⟩
      rw [he]
      simpa using ih2
    · have hx2 : (sweepStep pred p s).1.visited x = false := by
        rw [sweepStep_visited_ne hxp]; exact hx
      obtain ⟨ih1, ih2⟩ := ih hx2
      refine ⟨ih1, ?_⟩
      intro hmem
      rcases List.mem_append.mp hmem with h | h
      · rcases @sweepStep_events pred p s with he | ⟨he, _⟩ <;>
          rw [he] at h
        · simp at h
        · simp at h
          exact hxp h
      · exact ih2 h

lemma sweepGo_append (pred : Option Nat) (l1 l2 : List Nat) (s : Nav) :
    sweepGo pred (l1 ++ l2) s =
      ((sweepGo (predAfter pred l1) l2 (sweepGo pred l1 s).1).1,
       (sweepGo pred l1 s).2 ++ (sweepGo (predAfter pred l1) l2 (sweepGo pred l1 s).1).2) := by
  induction l1 generalizing pred s with
  | nil => simp [sweepGo, predAfter]
  | cons p rest ih =>
    simp only [List.cons_append, sweepGo_cons, ih (some p) (sweepStep pred p s).1]
    cases hr : rest.getLast? with
    | none =>
      have hre : rest = [] := List.getLast?_eq_none_iff.mp hr
      subst hre
      simp [predAfter, sweepGo]
    | some a =>
      have h2 : predAfter pred (p :: rest) = some a := by
        simp [predAfter, List.getLast?_cons, List.getLastD_eq_getLast?, hr]
      have h3 : predAfter (some p) rest = some a := by simp [predAfter, hr]
      rw [h2, h3, List.append_assoc]

/-- Sequential-unlock property of the consistency sweep: for adjacent
places `q`, `c` in a duplicate-free sweep list, if `c` is not already
confirmed (`placesAt` is not `true` for it, or its flag is off) and `q`
ends the sweep unvisited, then `c` ends the sweep unvisited and no
arrival event is emitted for `c`. -/
lemma sweepGo_seq {pred0 : Option Nat} {l1 l2 : List Nat} {q c : Nat} {s : Nav}
    (hnd : (l1 ++ q :: c :: l2).Nodup)
    (hc : mapGet s.placesAt c ≠ some true ∨ s.visited c = false)
    (hq : (sweepGo pred0 (l1 ++ q :: c :: l2) s).1.visited q = false) :
    (sweepGo pred0 (l1 ++ q :: c :: l2) s).1.visited c = false ∧
    NavEvent.arrivedAtPlace c ∉ (sweepGo pred0 (l1 ++ q :: c :: l2) s).2 := by
  have hnd2 := hnd
  rw [List.nodup_append] at hnd2
  obtain ⟨hnl1, hndqc, hdisj⟩ := hnd2
  have hql1 : q ∉ l1 := fun h => (hdisj h) (List.mem_cons_self _ _)
  have hcl1 : c ∉ l1 := fun h => (hdisj h) (List.mem_cons_of_mem _ (List.mem_cons_self _ _))
  have hqc : q ≠ c := by
    intro h
    subst h
    simp at hndqc
  have hql2 : q ∉ l2 := by
    simp [List.nodup_cons] at hndqc
    exact fun h => hndqc.1.2 h
  have hcl2 : c ∉ l2 := by
    simp [List.nodup_cons] at hndqc
    exact hndqc.2.1
  rw [sweepGo_append] at hq ⊢
  set pA := predAfter pred0 l1 with hpA
  set sA := (sweepGo pred0 l1 s).1 with hsA
  have hAc : sA.visited c = s.visited c := sweepGo_visited_of_not_mem hcl1
  have hAat : mapGet sA.placesAt c = mapGet s.placesAt c := sweepGo_placesAt_of_not_mem hcl1
  rw [sweepGo_cons] at hq ⊢
  set sB := (sweepStep pA q sA).1 with hsB
  have hBc : sB.visited c = sA.visited c := sweepStep_visited_ne (Ne.symm hqc)
  have hBat : mapGet sB.placesAt c = mapGet sA.placesAt c := sweepStep_placesAt_ne (Ne.symm hqc)
  rw [sweepGo_cons] at hq ⊢
  set sC := (sweepStep (some q) c sB).1 with hsC
  have hBq : sB.visited q = false := by
    have h1 : (sweepGo (some c) l2 sC).1.visited q = sC.visited q :=
      sweepGo_visited_of_not_mem hql2
    have h2 : sC.visited q = sB.visited q := sweepStep_visited_ne hqc
    rw [h1, h2] at hq
    exact hq
  have main : sC.visited c = false ∧ (sweepStep (some q) c sB).2 = [] := by
    cases hvB : sB.visited c with
    | false =>
      obtain ⟨h1, h2⟩ := @sweepStep_not_at (some q) c sB hvB
      constructor
      · rw [hsC, h1]; exact hvB
      · exact h2
    | true =>
      have hvs : s.visited c = true := by rw [← hAc, ← hBc]; exact hvB
      have hat : mapGet sB.placesAt c ≠ some true := by
        rw [hBat, hAat]
        rcases hc with h | h
        · exact h
        · rw [hvs] at h; exact absurd h (by simp)
      have hrev := sweepStep_revert hvB hat hBq
      constructor
      · rw [hsC, hrev]
        simp [setVisited]
      · rw [hrev]
  obtain ⟨hCc, hCe⟩ := main
  obtain ⟨hfin, hnoev⟩ := @sweepGo_unvisited (some c) l2 sC c hCc
  refine ⟨hfin, ?_⟩
  intro hmem
  simp only [List.mem_append] at hmem
  rcases hmem with h | h | h | h
  · exact hcl1 (sweepGo_arrived_mem h)
  · rcases @sweepStep_events pA q sA with he | ⟨he, _⟩ <;>
      rw [he] at h
    · simp at h
    · simp at h
      exact hqc h.symm
  · rw [hCe] at h
    simp at h
  · exact hnoev h

/-! ## Completion check and bookkeeping lemmas -/

lemma foldl_and_eq (m : List (Nat × Bool)) (b : Bool) :
    m.foldl (fun acc e => acc && e.2) b = (b && m.all fun e => e.2) := by
  induction m generalizing b with
  | nil => simp
  | cons e t ih => simp [ih, Bool.and_assoc]

lemma allVisitedCheck_iff (m : List (Nat × Bool)) :
    allVisitedCheck m = true ↔ allConfirmed m := by
  unfold allVisitedCheck allConfirmed
  rw [foldl_and_eq]
  cases m with
  | nil => simp
  | cons e t => simp [List.all_eq_true]

lemma allConfirmed_mapSet {m : List (Nat × Bool)} (h : allConfirmed m) (k : Nat) :
    allConfirmed (mapSet m k true) := by
  refine ⟨mapSet_ne_nil m k true, fun e he => ?_⟩
  rcases mem_mapSet he with he | he
  · exact h.2 e he
  · rw [he]

lemma sweepStep_allConfirmed {pred : Option Nat} {p : Nat} {s : Nav}
    (h : allConfirmed s.placesVisited) : allConfirmed (sweepStep pred p s).1.placesVisited := by
  rcases sweepStep_cases pred p s with hc | ⟨hc, _⟩ | ⟨hc, _⟩ | ⟨hc, _⟩ <;> rw [hc]
  · exact h
  · exact allConfirmed_mapSet h p
  · exact h
  · exact h

lemma sweepGo_allConfirmed {pred : Option Nat} {l : List Nat} {s : Nav}
    (h : allConfirmed s.placesVisited) : allConfirmed (sweepGo pred l s).1.placesVisited := by
  induction l generalizing pred s with
  | nil => exact h
  | cons p rest ih =>
    rw [sweepGo_cons]
    exact ih (sweepStep_allConfirmed h)

lemma sweepStep_count_allv (pred : Option Nat) (p : Nat) (s : Nav) :
    (sweepStep pred p s).2.count NavEvent.allPlacesVisited = 0 := by
  rcases @sweepStep_events pred p s with he | ⟨he, _⟩ <;> rw [he] <;> simp

lemma sweepGo_count_allv (pred : Option Nat) (l : List Nat) (s : Nav) :
    (sweepGo pred l s).2.count NavEvent.allPlacesVisited = 0 := by
  induction l generalizing pred s with
  | nil => simp [sweepGo]
  | cons p rest ih =>
    rw [sweepGo_cons]
    simp [List.count_append, sweepStep_count_allv, ih]

lemma completionStep_of_latch {s : Nav} (h : s.emittedAllVisited = true) :
    completionStep s = (s, []) := by
  simp [completionStep, h]

lemma completionStep_of_confirmed {s : Nav} (h : s.emittedAllVisited = false)
    (hall : allConfirmed s.placesVisited) :
    completionStep s = ({ s with emittedAllVisited := true }, [NavEvent.allPlacesVisited]) := by
  simp [completionStep, h, (allVisitedCheck_iff s.placesVisited).mpr hall]

lemma completionStep_cases (s : Nav) :
    completionStep s = (s, []) ∨
    completionStep s = ({ s with emittedAllVisited := true }, [NavEvent.allPlacesVisited]) := by
  unfold completionStep
  split
  · exact Or.inl rfl
  · split
    · exact Or.inr rfl
    · exact Or.inl rfl

lemma completionStep_frame (s : Nav) :
    (completionStep s).1.places = s.places ∧
    (completionStep s).1.status = s.status ∧
    (completionStep s).1.selected = s.selected ∧
    (completionStep s).1.visited = s.visited ∧
    (completionStep s).1.placesVisited = s.placesVisited ∧
    (completionStep s).1.placesAt = s.placesAt := by
  rcases completionStep_cases s with h | h <;> rw [h] <;> exact ⟨rfl, rfl, rfl, rfl, rfl, rfl⟩

lemma completionStep_no_arrived (s : Nav) (c : Nat) :
    NavEvent.arrivedAtPlace c ∉ (completionStep s).2 := by
  rcases completionStep_cases s with h | h <;> rw [h] <;> simp

lemma completionStep_count_le (s : Nav) :
    (completionStep s).2.count NavEvent.allPlacesVisited ≤ 1 := by
  rcases completionStep_cases s with h | h <;> rw [h] <;> simp

lemma completionStep_latch_mono {s : Nav} (h : s.emittedAllVisited = true) :
    (completionStep s).1.emittedAllVisited = true := by
  rw [completionStep_of_latch h]
  exact h

/-! ## Forward scan and array-helper lemmas -/

lemma firstUnvisited_some {l : List Nat} {v : Nat → Bool} {np : Nat}
    (h : firstUnvisited l v = some np) : np ∈ l ∧ v np = false := by
  induction l with
  | nil => simp [firstUnvisited] at h
  | cons a t ih =>
    by_cases ha : v a
    · simp only [firstUnvisited, if_pos ha] at h
      obtain ⟨h1, h2⟩ := ih h
      exact ⟨List.mem_cons_of_mem _ h1, h2⟩
    · simp only [firstUnvisited, if_neg ha] at h
      cases h
      exact ⟨List.mem_cons_self _ _, by simpa using ha⟩

lemma firstUnvisited_none {l : List Nat} {v : Nat → Bool}
    (h : ∀ x ∈ l, v x = true) : firstUnvisited l v = none := by
  induction l with
  | nil => rfl
  | cons a t ih =>
    have ha : v a := h a (List.mem_cons_self _ _)
    simp only [firstUnvisited, if_pos ha]
    exact ih fun x hx => h x (List.mem_cons_of_mem _ hx)

lemma jsIndexOf_of_not_mem {l : List Nat} {p : Nat} (h : p ∉ l) : jsIndexOf l p = -1 := by
  induction l with
  | nil => rfl
  | cons a t ih =>
    have ha : a ≠ p := fun hh => h (hh ▸ List.mem_cons_self _ _)
    have ht : p ∉ t := fun hh => h (List.mem_cons_of_mem _ hh)
    simp [jsIndexOf, ha, ih ht]

lemma jsGetIdx_neg {l : List Nat} {i : Int} (h : i < 0) : jsGetIdx l i = none := by
  simp [jsGetIdx, h]

/-! ## Case analysis of the selected-place block -/

/-- Either the selected-place block performs no auto-advance — then the
list, both bookkeeping maps and the all-visited latch are untouched, only
the selected place's own flag may change, and every emitted event is an
arrival for the selected place — or it auto-advances, in which case it
behaves as: an arrival step touching only the selected place's flag
(state `sb`), followed by a nested sweep and completion check, followed by
selecting the scanned place `np` (which is a member of the list). -/
lemma selectedPhase_cases (cfg : Cfg) (env : Nat → Option ℚ) (s : Nav) :
    ((selectedPhase cfg env s).1.places = s.places ∧
     (selectedPhase cfg env s).1.placesVisited = s.placesVisited ∧
     (selectedPhase cfg env s).1.placesAt = s.placesAt ∧
     (selectedPhase cfg env s).1.emittedAllVisited = s.emittedAllVisited ∧
     (∀ x, s.selected ≠ some x → (selectedPhase cfg env s).1.visited x = s.visited x) ∧
     (∀ ev ∈ (selectedPhase cfg env s).2,
       ∃ sp, s.selected = some sp ∧ ev = NavEvent.arrivedAtPlace sp)) ∨
    (∃ sp np sb,
      s.selected = some sp ∧
      sb.places = s.places ∧
      sb.placesVisited = s.placesVisited ∧
      sb.placesAt = s.placesAt ∧
      sb.emittedAllVisited = s.emittedAllVisited ∧
      (∀ x, x ≠ sp → sb.visited x = s.visited x) ∧
      np ∈ s.places ∧
      (selectedPhase cfg env s).1 =
        { (completionStep (sweepGo none sb.places sb).1).1 with
            selected := some np, hasArrivedAtSelectedPlace := false } ∧
      (∀ ev ∈ (selectedPhase cfg env s).2,
        ev = NavEvent.arrivedAtPlace sp ∨ ev ∈ (sweepGo none sb.places sb).2 ∨
        ev ∈ (completionStep (sweepGo none sb.places sb).1).2 ∨
        ev = NavEvent.navigationStarted (some np)) ∧
      (selectedPhase cfg env s).2.count NavEvent.allPlacesVisited =
        (completionStep (sweepGo none sb.places sb).1).2.count NavEvent.allPlacesVisited) := by
  cases hsel : s.selected with
  | none =>
    left
    simp [selectedPhase, hsel]
  | some sp =>
    cases harr : arrivalCheck cfg env s sp with
    | false =>
      cases hv : s.visited sp with
      | false =>
        left
        simp [selectedPhase, hsel, harr, hv]
      | true =>
        cases hnp : firstUnvisited
            (s.places.drop ((jsIndexOf s.places sp + 1).toNat)) s.visited with
        | none =>
          left
          simp only [selectedPhase, hsel, harr, hv, hnp, Bool.false_eq_true, if_false]
          refine ⟨rfl, rfl, rfl, rfl, fun x _ => rfl, ?_⟩
          intro ev hev
          simp at hev
          exact ⟨sp, rfl, hev⟩
        | some np =>
          right
          have hmem : np ∈ s.places := List.mem_of_mem_drop (firstUnvisited_some hnp).1
          refine ⟨sp, np,
            { s with hasArrivedAtSelectedPlace := true, selected := none,
                     status := NavigationStatus.inProgress },
            rfl, rfl, rfl, rfl, rfl, fun x _ => rfl, hmem, ?_, ?_, ?_⟩
          · simp only [selectedPhase, hsel, harr, hv, hnp, navigateToPlaceInner,
              updateNoSel, hmem, if_pos, Bool.false_eq_true, if_false, List.nil_append]
          · simp only [selectedPhase, hsel, harr, hv, hnp, navigateToPlaceInner,
              updateNoSel, hmem, if_pos, Bool.false_eq_true, if_false, List.nil_append]
            intro ev hev
            simp [List.mem_append] at hev
            tauto
          · simp only [selectedPhase, hsel, harr, hv, hnp, navigateToPlaceInner,
              updateNoSel, hmem, if_pos, Bool.false_eq_true, if_false, List.nil_append]
            simp [List.count_append, sweepGo_count_allv]
    | true =>
      have hvsp : setVisited s.visited sp true sp = true := by simp [setVisited]
      cases hnp : firstUnvisited
          (s.places.drop ((jsIndexOf s.places sp + 1).toNat))
          (setVisited s.visited sp true) with
      | none =>
        left
        simp only [selectedPhase, hsel, harr, hvsp, hnp, if_true]
        refine ⟨by trivial, by trivial, by trivial, by trivial, ?_, ?_⟩
        · intro x hx
          have hxs : x ≠ sp := fun h => hx (by rw [h])
          simp [setVisited, hxs]
        · intro ev hev
          simp at hev
          exact ⟨sp, rfl, hev⟩
      | some np =>
        right
        have hmem : np ∈ s.places := List.mem_of_mem_drop (firstUnvisited_some hnp).1
        refine ⟨sp, np,
          { s with visited := setVisited s.visited sp true,
                   hasArrivedAtSelectedPlace := true, selected := none,
                   status := NavigationStatus.inProgress },
          rfl, rfl, rfl, rfl, rfl, ?_, hmem, ?_, ?_, ?_⟩
        · intro x hx
          simp [setVisited, hx]
        · simp only [selectedPhase, hsel, harr, hvsp, hnp, navigateToPlaceInner,
            updateNoSel, hmem, if_pos, if_true, List.nil_append]
        · simp only [selectedPhase, hsel, harr, hvsp, hnp, navigateToPlaceInner,
            updateNoSel, hmem, if_pos, if_true, List.nil_append]
          intro ev hev
          simp [List.mem_append] at hev
          tauto
        · simp only [selectedPhase, hsel, harr, hvsp, hnp, navigateToPlaceInner,
            updateNoSel, hmem, if_pos, if_true, List.nil_append]
          simp [List.count_append, sweepGo_count_allv]

/-! ## Structural lemmas about a full tick -/

lemma update_fst (cfg : Cfg) (env : Nat → Option ℚ) (s : Nav) :
    (update cfg env s).1 =
      (completionStep (sweepGo none (selectedPhase cfg env s).1.places
        (selectedPhase cfg env s).1).1).1 := by
  simp [update]

lemma update_snd (cfg : Cfg) (env : Nat → Option ℚ) (s : Nav) :
    (update cfg env s).2 =
      (selectedPhase cfg env s).2 ++
      (sweepGo none (selectedPhase cfg env s).1.places (selectedPhase cfg env s).1).2 ++
      (completionStep (sweepGo none (selectedPhase cfg env s).1.places
        (selectedPhase cfg env s).1).1).2 := by
  simp [update]

/-- A tick with the all-visited latch already set emits no completion
event and keeps the latch set. -/
lemma update_latch_true {cfg : Cfg} {env : Nat → Option ℚ} {s : Nav}
    (h : s.emittedAllVisited = true) :
    (update cfg env s).1.emittedAllVisited = true ∧
    (update cfg env s).2.count NavEvent.allPlacesVisited = 0 := by
  rcases selectedPhase_cases cfg env s with
    ⟨hpl, hpv, hat, hlatch, hvis, hevs⟩ |
    ⟨sp, np, sb, hsel, hbpl, hbpv, hbat, hblatch, hbvis, hmem, hst, hevs, hcount⟩
  · have hspl : (selectedPhase cfg env s).1.emittedAllVisited = true := by rw [hlatch]; exact h
    have hswl : (sweepGo none (selectedPhase cfg env s).1.places
        (selectedPhase cfg env s).1).1.emittedAllVisited = true := by
      rw [(sweepGo_frame _ _ _).2.2.2]
      exact hspl
    have hcomp := completionStep_of_latch hswl
    constructor
    · rw [update_fst, hcomp]
      exact hswl
    · rw [update_snd]
      have h1 : (selectedPhase cfg env s).2.count NavEvent.allPlacesVisited = 0 := by
        refine List.count_eq_zero_of_not_mem fun hm => ?_
        obtain ⟨x, _, he⟩ := hevs _ hm
        exact absurd he (by simp)
      simp [List.count_append, h1, sweepGo_count_allv, hcomp]
  · have hbl : sb.emittedAllVisited = true := by rw [hblatch]; exact h
    have hswl : (sweepGo none sb.places sb).1.emittedAllVisited = true := by
      rw [(sweepGo_frame _ _ _).2.2.2]
      exact hbl
    have hcomp := completionStep_of_latch hswl
    have hspl : (selectedPhase cfg env s).1.emittedAllVisited = true := by
      rw [hst]
      show (completionStep (sweepGo none sb.places sb).1).1.emittedAllVisited = true
      rw [hcomp]
      exact hswl
    have hswl2 : (sweepGo none (selectedPhase cfg env s).1.places
        (selectedPhase cfg env s).1).1.emittedAllVisited = true := by
      rw [(sweepGo_frame _ _ _).2.2.2]
      exact hspl
    have hcomp2 := completionStep_of_latch hswl2
    constructor
    · rw [update_fst, hcomp2]
      exact hswl2
    · rw [update_snd]
      have h1 : (selectedPhase cfg env s).2.count NavEvent.allPlacesVisited = 0 := by
        rw [hcount, hcomp]
        rfl
      simp [List.count_append, h1, sweepGo_count_allv, hcomp2]

/-- A tick that starts with the latch clear and every bookkeeping entry
confirmed emits the completion event exactly once and sets the latch. -/
lemma update_latch_emit {cfg : Cfg} {env : Nat → Option ℚ} {s : Nav}
    (h : s.emittedAllVisited = false) (hG : allConfirmed s.placesVisited) :
    (update cfg env s).1.emittedAllVisited = true ∧
    (update cfg env s).2.count NavEvent.allPlacesVisited = 1 := by
  rcases selectedPhase_cases cfg env s with
    ⟨hpl, hpv, hat, hlatch, hvis, hevs⟩ |
    ⟨sp, np, sb, hsel, hbpl, hbpv, hbat, hblatch, hbvis, hmem, hst, hevs, hcount⟩
  · have hspl : (selectedPhase cfg env s).1.emittedAllVisited = false := by rw [hlatch]; exact h
    have hspG : allConfirmed (selectedPhase cfg env s).1.placesVisited := by rw [hpv]; exact hG
    have hswl : (sweepGo none (selectedPhase cfg env s).1.places
        (selectedPhase cfg env s).1).1.emittedAllVisited = false := by
      rw [(sweepGo_frame _ _ _).2.2.2]
      exact hspl
    have hswG := @sweepGo_allConfirmed none (selectedPhase cfg env s).1.places _ hspG
    have hcomp := completionStep_of_confirmed hswl hswG
    constructor
    · rw [update_fst, hcomp]
    · rw [update_snd]
      have h1 : (selectedPhase cfg env s).2.count NavEvent.allPlacesVisited = 0 := by
        refine List.count_eq_zero_of_not_mem fun hm => ?_
        obtain ⟨x, _, he⟩ := hevs _ hm
        exact absurd he (by simp)
      simp [List.count_append, h1, sweepGo_count_allv, hcomp]
  · have hbl : sb.emittedAllVisited = false := by rw [hblatch]; exact h
    have hbG : allConfirmed sb.placesVisited := by rw [hbpv]; exact hG
    have hswl : (sweepGo none sb.places sb).1.emittedAllVisited = false := by
      rw [(sweepGo_frame _ _ _).2.2.2]
      exact hbl
    have hswG := @sweepGo_allConfirmed none sb.places _ hbG
    have hcomp := completionStep_of_confirmed hswl hswG
    have hspl : (selectedPhase cfg env s).1.emittedAllVisited = true := by
      rw [hst]
      show (completionStep (sweepGo none sb.places sb).1).1.emittedAllVisited = true
      rw [hcomp]
    have hswl2 : (sweepGo none (selectedPhase cfg env s).1.places
        (selectedPhase cfg env s).1).1.emittedAllVisited = true := by
      rw [(sweepGo_frame _ _ _).2.2.2]
      exact hspl
    have hcomp2 := completionStep_of_latch hswl2
    constructor
    · rw [update_fst, hcomp2]
      exact hswl2
    · rw [update_snd]
      have h1 : (selectedPhase cfg env s).2.count NavEvent.allPlacesVisited = 1 := by
        rw [hcount, hcomp]
        rfl
      simp [List.count_append, h1, sweepGo_count_allv, hcomp2]

lemma runTicks_latch {cfg : Cfg} {env : Nat → Option ℚ} :
    ∀ (n : Nat) (s : Nav), s.emittedAllVisited = true →
    (runTicks cfg env n s).1.emittedAllVisited = true ∧
    (runTicks cfg env n s).2.count NavEvent.allPlacesVisited = 0 := by
  intro n
  induction n with
  | zero => exact fun s h => ⟨h, rfl⟩
  | succ n ih =>
    intro s h
    obtain ⟨h1, h2⟩ := @update_latch_true cfg env s h
    obtain ⟨h3, h4⟩ := ih _ h1
    refine ⟨h3, ?_⟩
    simp [runTicks, List.count_append, h2, h4]

/-! ## Claim theorems -/

/-- C6 (confirmed): completion latch — from any controller state in which
every registered waypoint's bookkeeping entry is confirmed visited (the
list being non-empty) and `onAllPlacesVisited` has not fired yet, any
number of further ticks emits `onAllPlacesVisited` exactly once, no matter
how many ticks follow the completing one. -/
theorem claim_C6 (cfg : Cfg) (env : Nat → Option ℚ) (s : Nav) (n : Nat)
    (hlatch : s.emittedAllVisited = false) (hconf : allConfirmed s.placesVisited) :
    (runTicks cfg env (n + 1) s).2.count NavEvent.allPlacesVisited = 1 := by
  obtain ⟨h1, h2⟩ := @update_latch_emit cfg env s hlatch hconf
  obtain ⟨h3, h4⟩ := @runTicks_latch cfg env n _ h1
  simp [runTicks, List.count_append, h2, h4]

/-- Witness for C6: both waypoints confirmed, five further ticks, one
completion event in total. -/
theorem claim_C6_witness :
    (runTicks demoCfg noFixEnv 5 doneNav).2.count NavEvent.allPlacesVisited = 1 :=
  claim_C6 demoCfg noFixEnv doneNav 4 rfl ⟨by decide, by decide⟩

/-- C9 (confirmed): the per-place self-check path — for any place `p`
(whatever the controller state: any selected place, any list membership,
any predecessor flags), if the tracker reports a non-null distance
strictly below the place's own activation radius, the self-check round
marks `p` visited; and the self-check round never clears a visited
flag. -/
theorem claim_C9 (cfg : Cfg) (env : Nat → Option ℚ) (s : Nav) (p : Nat) :
    (∀ d : ℚ, env p = some d → d < cfg.radius p →
      (selfPhase cfg env s).visited p = true) ∧
    (s.visited p = true → (selfPhase cfg env s).visited p = true) := by
  constructor
  · intro d hd hlt
    simp [selfPhase, placeCheckVisited, hd, hlt]
  · intro hv
    by_cases hc : placeCheckVisited (env p) (cfg.radius p) = true <;>
      simp [selfPhase, hc, hv]

/-- Witness for C9: place 1 within 5 m of its 10 m radius gets marked, and
a place already visited stays visited. -/
theorem claim_C9_witness :
    (selfPhase demoCfg nearSecondEnv idleNav).visited 1 = true ∧
    (selfPhase demoCfg noFixEnv stubbedNav).visited 1 = true :=
  ⟨(claim_C9 demoCfg nearSecondEnv idleNav 1).1 5 rfl (by decide),
   (claim_C9 demoCfg noFixEnv stubbedNav 1).2 rfl⟩

/-- Counterexample to C7 as stated: with place 0 selected and already
visited (its flag set by the per-place proximity check between ticks),
calling `navigateToPlace(1)` twice in a row emits `onNavigationStarted`
twice, not at most once — the first call auto-advances inside its nested
`update` (emitting `navigationStarted(1)`) and then emits
`navigationStarted(1)` again itself. -/
theorem claim_C7_counterexample :
    ¬ (((navigateToPlace demoCfg noFixEnv (some 1) arrivedNav).2 ++
        (navigateToPlace demoCfg noFixEnv (some 1)
          (navigateToPlace demoCfg noFixEnv (some 1) arrivedNav).1).2).count
        (NavEvent.navigationStarted (some 1)) ≤ 1) := by decide

/-- C7 amended (corrected): the second of two consecutive
`navigateToPlace(w)` calls is a strict no-op — it changes no controller
state and emits nothing; the first call emits `onNavigationStarted(w)` at
least once but may emit it twice when the previously selected waypoint is
already visited and the nested update auto-advances to `w`. -/
theorem claim_C7_amended (cfg : Cfg) (env : Nat → Option ℚ) (s : Nav) (w : Nat)
    (h : s.selected = some w) :
    navigateToPlace cfg env (some w) s = (s, []) := by
  simp [navigateToPlace, h]

/-- Witness for C7 amended: place 1 already selected, the call returns the
state unchanged with no events. -/
theorem claim_C7_amended_witness :
    navigateToPlace demoCfg noFixEnv (some 1) secondSelNav = (secondSelNav, []) :=
  claim_C7_amended demoCfg noFixEnv secondSelNav 1 rfl

/-- C8 (confirmed): registering an active waypoint definition whose
latitude or longitude string does not parse aborts with the parser's
descriptive error before `addPlace` is ever reached — the registration
result is an `Except.error`, never an `Except.ok`, so the waypoint is
not added to the ordered list — and at least one of the two coordinate
conversions yields no number at all (in particular, the malformed
coordinate is never silently defaulted to 0). -/
theorem claim_C8 (inp : GeoPlaceInput) (freshId : Nat) (s : Nav) (e : String)
    (ha : inp.active = true)
    (he : convertToNumber inp.longitude = Except.error e ∨
          convertToNumber inp.latitude = Except.error e) :
    (∃ msg : String, registerManualPlace inp freshId s = Except.error msg) ∧
    (∀ t : Nav × List NavEvent, registerManualPlace inp freshId s ≠ Except.ok t) ∧
    (∀ q : ℚ, convertToNumber inp.longitude ≠ Except.ok q ∨
      convertToNumber inp.latitude ≠ Except.ok q) := by
  have hmain : ∃ msg : String, registerManualPlace inp freshId s = Except.error msg := by
    rcases he with he | he
    · exact ⟨e, by simp [registerManualPlace, ha, he]⟩
    · cases hlon : convertToNumber inp.longitude with
      | error e2 => exact ⟨e2, by simp [registerManualPlace, ha, hlon]⟩
      | ok v => exact ⟨e, by simp [registerManualPlace, ha, hlon, he]⟩
  obtain ⟨msg, hmsg⟩ := hmain
  refine ⟨⟨msg, hmsg⟩, ?_, ?_⟩
  · intro t ht
    rw [hmsg] at ht
    exact Except.noConfusion ht
  · intro q
    rcases he with he | he
    · exact Or.inl fun hq => Except.noConfusion (he ▸ hq)
    · exact Or.inr fun hq => Except.noConfusion (he ▸ hq)

/-- Witness for C8, covering both malformed coordinates: a definition
with longitude `"abc"` and one with latitude `"abc"` each fail
registration with a descriptive error. -/
theorem claim_C8_witness :
    (∃ msg : String, registerManualPlace ⟨true, "50.45", "abc", "Checkpoint", 10⟩
      7 emptyNav = Except.error msg) ∧
    (∃ msg : String, registerManualPlace ⟨true, "abc", "30.52", "Checkpoint", 10⟩
      8 emptyNav = Except.error msg) :=
  ⟨(claim_C8 ⟨true, "50.45", "abc", "Checkpoint", 10⟩ 7 emptyNav
      "Could not convert abc to a number." rfl (Or.inl rfl)).1,
   (claim_C8 ⟨true, "abc", "30.52", "Checkpoint", 10⟩ 8 emptyNav
      "Could not convert abc to a number." rfl (Or.inr rfl)).1⟩

/-- C4 (code bug): the claim — and the method's own documentation and
declared `vec3 | null` return type — say `getRelativePosition()` returns
null when the user has no GPS fix; but the body of
`calculateRelativePosition` contains no null return: the null distance
flows through JavaScript arithmetic as 0 (`null * 100 === 0`), so a
position (the user's own anchor position, Y pinned to ground height) is
returned even with `u.geo = none`.  The Y-pinning half of the claim does
hold. -/
theorem claim_C4_code_bug (sinFn cosFn : ℚ → ℚ) (distFn : GeoPos → GeoPos → ℚ)
    (bearFn : Option GeoPos → GeoPos → ℚ) (u : UserObs) (pl : GeoPlace)
    (hnofix : u.geo = none) :
    getRelativePosition sinFn cosFn distFn bearFn u pl ≠ none ∧
    ∃ v : Vec3, getRelativePosition sinFn cosFn distFn bearFn u pl = some v ∧
      v.y = u.worldPos.y := by
  exact ⟨by simp [getRelativePosition, calculateRelativePosition], ⟨_, rfl, rfl⟩⟩

/-- Witness for C4: at the concrete no-fix observation the projection is
non-null with Y pinned to the anchor ground height. -/
theorem claim_C4_code_bug_witness :
    getRelativePosition (fun _ => 0) (fun _ => 1) (fun _ _ => 0) (fun _ _ => 0)
      noFixUser demoPlace ≠ none ∧
    ∃ v : Vec3, getRelativePosition (fun _ => 0) (fun _ => 1) (fun _ _ => 0)
      (fun _ _ => 0) noFixUser demoPlace = some v ∧ v.y = noFixUser.worldPos.y :=
  claim_C4_code_bug (fun _ => 0) (fun _ => 1) (fun _ _ => 0) (fun _ _ => 0)
    noFixUser demoPlace rfl

/-- Counterexample to C1 as stated: mid-tick the guarantee fails.  With
waypoints `[0, 1]` registered and the user 5 m from waypoint 1 (but 20 m
from waypoint 0), the per-place self-check round — an observable point of
the tick, since every `Place` binds its own `UpdateEvent` handler that
runs independently of the controller's — flips waypoint 1 to visited
while waypoint 0 is still unvisited. -/
theorem claim_C1_counterexample :
    idleNav.places = [0, 1] ∧
    idleNav.visited 0 = false ∧
    idleNav.visited 1 = false ∧
    (selfPhase demoCfg nearSecondEnv idleNav).visited 1 = true ∧
    (selfPhase demoCfg nearSecondEnv idleNav).visited 0 = false := by decide

/-- C1 amended (corrected): sequential unlock holds at sweep boundaries,
not at every observable point: mid-tick waypoint `i+1` can transiently be
visited while waypoint `i` is not (the per-place proximity self-check
consults no predecessor), but the controller's consistency sweep restores
the invariant — for adjacent registered waypoints `q`, `c` (duplicate-free
list) with `c` not previously confirmed, if `q` ends the sweep unvisited
then `c` ends the sweep unvisited. -/
theorem claim_C1_amended (l1 l2 : List Nat) (q c : Nat) (s : Nav)
    (hps : s.places = l1 ++ q :: c :: l2) (hnd : s.places.Nodup)
    (hat : mapGet s.placesAt c ≠ some true)
    (hq : (sweepGo none s.places s).1.visited q = false) :
    (sweepGo none s.places s).1.visited c = false := by
  rw [hps] at hnd hq ⊢
  exact (sweepGo_seq hnd (Or.inl hat) hq).1

/-- Witness for C1 amended: the transiently-visited waypoint 1 of the
counterexample state is reverted by the sweep. -/
theorem claim_C1_amended_witness :
    (sweepGo none stubbedIdleNav.places stubbedIdleNav).1.visited 1 = false :=
  claim_C1_amended [] [] 0 1 stubbedIdleNav rfl (by decide) (by decide) (by decide)

/-- Counterexample to C2 as stated: a reachable state (register one
place, let its own proximity check mark it visited, tick once) where the
place list is non-empty and every registered waypoint is visited — and
confirmed by the sweep — yet the status is still `Initializing`, not
`Succeeded`: the `Succeeded` transition only ever happens on the
selected-waypoint path, which never ran because nothing was selected. -/
theorem claim_C2_counterexample :
    (update demoCfg noFixEnv soloVisitedNav).1.places ≠ [] ∧
    (∀ q ∈ (update demoCfg noFixEnv soloVisitedNav).1.places,
      (update demoCfg noFixEnv soloVisitedNav).1.visited q = true) ∧
    ¬ ((update demoCfg noFixEnv soloVisitedNav).1.status = NavigationStatus.succeeded ↔
        ((update demoCfg noFixEnv soloVisitedNav).1.places ≠ [] ∧
          ∀ q ∈ (update demoCfg noFixEnv soloVisitedNav).1.places,
            (update demoCfg noFixEnv soloVisitedNav).1.visited q = true)) := by decide

/-- C2 amended (corrected): `Succeeded` is not equivalent to
"all registered waypoints visited and list non-empty" (the counterexample
refutes the right-to-left direction, and the left-to-right direction
fails too because the scan only inspects indices after the active one);
what holds is: a tick whose active waypoint is visited and whose
later-indexed waypoints are all visited ends with status `Succeeded` and
no waypoint selected. -/
theorem claim_C2_amended (cfg : Cfg) (env : Nat → Option ℚ) (s : Nav) (sp : Nat)
    (hsel : s.selected = some sp) (hv : s.visited sp = true)
    (hall : ∀ q ∈ s.places.drop ((jsIndexOf s.places sp + 1).toNat),
      s.visited q = true) :
    (update cfg env s).1.status = NavigationStatus.succeeded ∧
    (update cfg env s).1.selected = none := by
  have harr : arrivalCheck cfg env s sp = false := by
    unfold arrivalCheck
    cases henv : env sp with
    | none => rfl
    | some d => simp [hv]
  have hnp : firstUnvisited
      (s.places.drop ((jsIndexOf s.places sp + 1).toNat)) s.visited = none :=
    firstUnvisited_none hall
  have hsp : selectedPhase cfg env s =
      ({ s with hasArrivedAtSelectedPlace := true, selected := none,
                status := NavigationStatus.succeeded },
       [NavEvent.arrivedAtPlace sp]) := by
    simp only [selectedPhase, hsel, harr, Bool.false_eq_true, if_false, hv, if_true, hnp,
      List.nil_append]
  rw [update_fst, hsp]
  constructor
  · rw [(completionStep_frame _).2.1, (sweepGo_frame _ _ _).2.1]
  · rw [(completionStep_frame _).2.2.1, (sweepGo_frame _ _ _).2.2.1]

/-- Witness for C2 amended: place 1 selected and visited with no later
waypoint, one tick yields `Succeeded` and clears the selection. -/
theorem claim_C2_amended_witness :
    (update demoCfg noFixEnv secondSelVisitedNav).1.status =
      NavigationStatus.succeeded ∧
    (update demoCfg noFixEnv secondSelVisitedNav).1.selected = none :=
  claim_C2_amended demoCfg noFixEnv secondSelVisitedNav 1 rfl (by decide) (by decide)

/-- Counterexample to C3 as stated: in the two-waypoint arrival scenario
(A = place 0 active and unvisited, predecessor condition vacuous, user
5 m inside A's 10 m radius) the tick does mark A visited and advance to
B, but `onArrivedAtPlace(A)` fires three times, not exactly once. -/
theorem claim_C3_counterexample :
    (update demoCfg nearFirstEnv twoNav).1.visited 0 = true ∧
    (update demoCfg nearFirstEnv twoNav).1.selected = some 1 ∧
    ¬ ((update demoCfg nearFirstEnv twoNav).2.count (NavEvent.arrivedAtPlace 0) = 1) := by
  decide

/-- C3 amended (corrected): in that scenario a single tick marks A
visited, advances the active waypoint to B, and emits
`onArrivedAtPlace(A)` exactly three times: once from the arrival check,
once from the unconditional re-emit in the `atPlace` branch, and once
from the consistency sweep of the nested `update` that the auto-advance
`navigateToPlace(B)` performs. -/
theorem claim_C3_amended :
    (update demoCfg nearFirstEnv twoNav).1.visited 0 = true ∧
    (update demoCfg nearFirstEnv twoNav).1.selected = some 1 ∧
    (update demoCfg nearFirstEnv twoNav).2.count (NavEvent.arrivedAtPlace 0) = 3 := by
  decide

/-- Counterexample to C5 as stated: place 1 (= C, not active) is
externally flagged visited while its predecessor place 0 (= B, the active
waypoint) is unvisited; on the next tick the user is inside B's radius,
so B becomes visited during the same tick — before the sweep reaches C —
and the sweep then *confirms* C instead of reverting it, emitting
`onArrivedAtPlace(C)`. -/
theorem claim_C5_counterexample :
    stubbedNav.selected = some 0 ∧
    stubbedNav.visited 1 = true ∧
    stubbedNav.visited 0 = false ∧
    (update demoCfg nearFirstEnv stubbedNav).1.visited 1 = true ∧
    NavEvent.arrivedAtPlace 1 ∈ (update demoCfg nearFirstEnv stubbedNav).2 := by
  decide

/-- C5 amended (corrected): the revert holds provided the predecessor is
not the waypoint being arrived at that tick — for adjacent registered
waypoints `q`, `c` (duplicate-free list) with `c` flagged visited but not
previously confirmed, `q` unvisited, and neither `q` nor `c` the active
waypoint, the tick reverts `c.visited` to false and emits no
`onArrivedAtPlace(c)`. -/
theorem claim_C5_amended (cfg : Cfg) (env : Nat → Option ℚ) (s : Nav)
    (l1 l2 : List Nat) (q c : Nat)
    (hps : s.places = l1 ++ q :: c :: l2) (hnd : s.places.Nodup)
    (hvc : s.visited c = true) (hvq : s.visited q = false)
    (hat : mapGet s.placesAt c ≠ some true)
    (hselc : s.selected ≠ some c) (hselq : s.selected ≠ some q) :
    (update cfg env s).1.visited c = false ∧
    NavEvent.arrivedAtPlace c ∉ (update cfg env s).2 := by
  rcases selectedPhase_cases cfg env s with
    ⟨hpl, hpv, hat2, hlatch, hvis, hevs⟩ |
    ⟨sp, np, sb, hsel, hbpl, hbpv, hbat, hblatch, hbvis, hmem, hst, hevs, hcount⟩
  · -- no auto-advance: only the outer sweep acts
    have hPq : (selectedPhase cfg env s).1.visited q = false := by
      rw [hvis q hselq]; exact hvq
    have hPat : mapGet (selectedPhase cfg env s).1.placesAt c ≠ some true := by
      rw [hat2]; exact hat
    have hfinq : (sweepGo none (selectedPhase cfg env s).1.places
        (selectedPhase cfg env s).1).1.visited q = false :=
      (sweepGo_unvisited hPq).1
    have hshape : (selectedPhase cfg env s).1.places = l1 ++ q :: c :: l2 := by
      rw [hpl]; exact hps
    have hnd2 : ((selectedPhase cfg env s).1.places).Nodup := by
      rw [hpl]; exact hnd
    rw [hshape] at hfinq hnd2
    have hseq := @sweepGo_seq none l1 l2 q c (selectedPhase cfg env s).1
      hnd2 (Or.inl hPat) hfinq
    constructor
    · rw [update_fst, (completionStep_frame _).2.2.2.1, hshape]
      exact hseq.1
    · rw [update_snd]
      intro hmem2
      rcases List.mem_append.mp hmem2 with hmem2 | hmem2
      · rcases List.mem_append.mp hmem2 with hmem2 | hmem2
        · obtain ⟨x, hx1, hx2⟩ := hevs _ hmem2
          have : c = x := by
            injection hx2
          rw [← this] at hx1
          exact hselc hx1
        · rw [hshape] at hmem2
          exact hseq.2 hmem2
      · exact completionStep_no_arrived _ _ hmem2
  · -- auto-advance: the nested sweep already reverts c, the outer sweep
    -- then leaves it unvisited
    have hspc : sp ≠ c := fun h => hselc (h ▸ hsel)
    have hspq : sp ≠ q := fun h => hselq (h ▸ hsel)
    have hbc : sb.visited c = true := by
      rw [hbvis c (Ne.symm hspc)]; exact hvc
    have hbq : sb.visited q = false := by
      rw [hbvis q (Ne.symm hspq)]; exact hvq
    have hbatc : mapGet sb.placesAt c ≠ some true := by
      rw [hbat]; exact hat
    have hshape : sb.places = l1 ++ q :: c :: l2 := by
      rw [hbpl]; exact hps
    have hnd2 : sb.places.Nodup := by
      rw [hbpl]; exact hnd
    have hfinq : (sweepGo none sb.places sb).1.visited q = false :=
      (sweepGo_unvisited hbq).1
    rw [hshape] at hfinq hnd2
    have hseq := @sweepGo_seq none l1 l2 q c sb hnd2 (Or.inl hbatc) hfinq
    rw [← hshape] at hseq
    have hPc : (selectedPhase cfg env s).1.visited c = false := by
      rw [hst]
      show (completionStep (sweepGo none sb.places sb).1).1.visited c = false
      rw [(completionStep_frame _).2.2.2.1]
      exact hseq.1
    have hout := @sweepGo_unvisited none (selectedPhase cfg env s).1.places
      (selectedPhase cfg env s).1 c hPc
    constructor
    · rw [update_fst, (completionStep_frame _).2.2.2.1]
      exact hout.1
    · rw [update_snd]
      intro hmem2
      rcases List.mem_append.mp hmem2 with hmem2 | hmem2
      · rcases List.mem_append.mp hmem2 with hmem2 | hmem2
        · rcases hevs _ hmem2 with he | he | he | he
          · have : c = sp := by injection he
            exact hspc this.symm
          · exact hseq.2 he
          · exact completionStep_no_arrived _ _ he
          · exact NavEvent.noConfusion he
        · exact hout.2 hmem2
      · exact completionStep_no_arrived _ _ hmem2

/-- Witness for C5 amended: the transiently-flagged place 1 with nothing
selected is reverted by the tick with no arrival event for it. -/
theorem claim_C5_amended_witness :
    (update demoCfg noFixEnv stubbedIdleNav).1.visited 1 = false ∧
    NavEvent.arrivedAtPlace 1 ∉ (update demoCfg noFixEnv stubbedIdleNav).2 :=
  claim_C5_amended demoCfg noFixEnv stubbedIdleNav [] [] 0 1 rfl (by decide)
    (by decide) (by decide) (by decide) (by decide) (by decide)

lemma removePlace_fst (p : Nat) (s : Nav) :
    (removePlace p s).1 =
      { s with places := s.places.filter (fun a => decide (a ≠ p)),
               placesVisited := s.placesVisited.filter (fun e => decide (e.1 ≠ p)),
               placesAt := s.placesAt.filter (fun e => decide (e.1 ≠ p)) } := by
  unfold removePlace
  simp only []
  split <;> rfl

/-- A tick whose selected place is absent from the list treats the
predecessor condition as satisfied (index -1, so `places[-2]` is
`undefined`) and can still mark it visited and emit its arrival. -/
lemma update_removed_selected {cfg : Cfg} {env : Nat → Option ℚ} {s' : Nav} {p : Nat}
    {d : ℚ} (hsel : s'.selected = some p) (hnm : p ∉ s'.places)
    (henv : env p = some d) (hd : d ≤ (cfg.distanceToActivate p).getD 10)
    (hv : s'.visited p = false) :
    (update cfg env s').1.visited p = true ∧
    NavEvent.arrivedAtPlace p ∈ (update cfg env s').2 := by
  have hidx : jsIndexOf s'.places p = -1 := jsIndexOf_of_not_mem hnm
  have hgi : jsGetIdx s'.places (jsIndexOf s'.places p - 1) = none := by
    rw [hidx]
    exact jsGetIdx_neg (by norm_num)
  have harr : arrivalCheck cfg env s' p = true := by
    simp [arrivalCheck, henv, hgi, hd, hv]
  have hvsp : setVisited s'.visited p true p = true := by simp [setVisited]
  cases hnp : firstUnvisited (s'.places.drop ((jsIndexOf s'.places p + 1).toNat))
      (setVisited s'.visited p true) with
  | none =>
    constructor
    · rw [update_fst, (completionStep_frame _).2.2.2.1]
      simp only [selectedPhase, hsel, harr, if_true, hvsp, hnp]
      rw [sweepGo_visited_of_not_mem hnm]
      exact hvsp
    · rw [update_snd]
      apply List.mem_append_left
      apply List.mem_append_left
      simp only [selectedPhase, hsel, harr, if_true, hvsp, hnp]
      simp
  | some np =>
    have memnp : np ∈ s'.places := List.mem_of_mem_drop (firstUnvisited_some hnp).1
    constructor
    · rw [update_fst, (completionStep_frame _).2.2.2.1]
      simp only [selectedPhase, hsel, harr, if_true, hvsp, hnp, navigateToPlaceInner,
        updateNoSel, memnp, if_pos, List.nil_append]
      have hnm2 : p ∉ (completionStep (sweepGo none
          ({ s' with visited := setVisited s'.visited p true,
                     hasArrivedAtSelectedPlace := true, selected := none,
                     status := NavigationStatus.inProgress } : Nav).places
          { s' with visited := setVisited s'.visited p true,
                    hasArrivedAtSelectedPlace := true, selected := none,
                    status := NavigationStatus.inProgress }).1).1.places := by
        rw [(completionStep_frame _).1, (sweepGo_frame _ _ _).1]
        exact hnm
      rw [sweepGo_visited_of_not_mem hnm2, (completionStep_frame _).2.2.2.1,
        sweepGo_visited_of_not_mem hnm]
      exact hvsp
    · rw [update_snd]
      apply List.mem_append_left
      apply List.mem_append_left
      simp only [selectedPhase, hsel, harr, if_true, hvsp, hnp, navigateToPlaceInner,
        updateNoSel, memnp, if_pos, List.nil_append]
      simp

/-- C10 (confirmed): `removePlace` touches only the place list and the two
per-place bookkeeping maps — it leaves `selectedPlace`, the status, the
all-visited latch, the arrival latch and every visited flag unchanged —
so removing the currently selected waypoint does not deselect it, and a
subsequent tick still evaluates the removed waypoint: its list index is
-1, the predecessor lookup at index -2 is `undefined` (treated as
satisfied), so within its activation distance it is marked visited and
`onArrivedAtPlace` still fires for it. -/
theorem claim_C10 (cfg : Cfg) (env : Nat → Option ℚ) (s : Nav) (p : Nat) (d : ℚ) :
    ((removePlace p s).1.selected = s.selected ∧
     (removePlace p s).1.status = s.status ∧
     (removePlace p s).1.emittedAllVisited = s.emittedAllVisited ∧
     (removePlace p s).1.hasArrivedAtSelectedPlace = s.hasArrivedAtSelectedPlace ∧
     (removePlace p s).1.visited = s.visited) ∧
    (s.selected = some p → env p = some d →
      d ≤ (cfg.distanceToActivate p).getD 10 → s.visited p = false →
      (update cfg env (removePlace p s).1).1.visited p = true ∧
      NavEvent.arrivedAtPlace p ∈ (update cfg env (removePlace p s).1).2) := by
  refine ⟨⟨?_, ?_, ?_, ?_, ?_⟩, ?_⟩
  · rw [removePlace_fst]
  · rw [removePlace_fst]
  · rw [removePlace_fst]
  · rw [removePlace_fst]
  · rw [removePlace_fst]
  · intro hsel henv hd hv
    have hsel2 : (removePlace p s).1.selected = some p := by
      rw [removePlace_fst]
      exact hsel
    have hnm : p ∉ (removePlace p s).1.places := by
      rw [removePlace_fst]
      simp [List.mem_filter]
    have hv2 : (removePlace p s).1.visited p = false := by
      rw [removePlace_fst]
      exact hv
    exact update_removed_selected hsel2 hnm henv hd hv2

/-- Witness for C10: removing the selected place 1 keeps it selected, and
the next tick (user 5 m from it) marks it visited and emits its
arrival. -/
theorem claim_C10_witness :
    ((removePlace 1 secondSelNav).1.selected = secondSelNav.selected ∧
     (removePlace 1 secondSelNav).1.status = secondSelNav.status ∧
     (removePlace 1 secondSelNav).1.emittedAllVisited =
       secondSelNav.emittedAllVisited ∧
     (removePlace 1 secondSelNav).1.hasArrivedAtSelectedPlace =
       secondSelNav.hasArrivedAtSelectedPlace ∧
     (removePlace 1 secondSelNav).1.visited = secondSelNav.visited) ∧
    ((update demoCfg nearSecondEnv (removePlace 1 secondSelNav).1).1.visited 1 = true ∧
     NavEvent.arrivedAtPlace 1 ∈
       (update demoCfg nearSecondEnv (removePlace 1 secondSelNav).1).2) :=
  ⟨(claim_C10 demoCfg nearSecondEnv secondSelNav 1 5).1,
   (claim_C10 demoCfg nearSecondEnv secondSelNav 1 5).2 rfl rfl (by decide) rfl⟩

end Spectacles
